import Mathlib

/-!
Verification of the autoinbox email-processing pipeline.

The Python sources (src/ai/ollama_client.py, src/email/email_processor.py,
src/email/gmail_client.py) are shallowly embedded below.  Text is modelled
as `List Char` (wrapped in `String` at the API boundary), the Python `re`
operations used by the code are embedded as explicit left-to-right scans
with the exact greedy/non-greedy semantics of the patterns that appear in
the source, and the two external collaborators (Gmail, Ollama) are passed
in as function parameters.  Functions that remove variable-length chunks
use an explicit fuel argument (`fuel := length of the input`) so that all
definitions compute by kernel reduction; the fuel is always sufficient
because every removal consumes at least one character.
-/

namespace AutoInbox

/-- Python whitespace class `\s` (ASCII part) and the set stripped by
`str.strip()`: space, tab, newline, carriage return, vertical tab, form feed. -/
def isPySpace (c : Char) : Bool :=
  c = ' ' || c = '\t' || c = '\n' || c = '\r' || c = '\x0b' || c = '\x0c'

/-- If `pat` is a (case-sensitive) prefix of `s`, return the remainder of `s`. -/
def stripPrefixL : List Char → List Char → Option (List Char)
  | [], s => some s
  | _ :: _, [] => none
  | p :: pt, c :: ct => if c = p then stripPrefixL pt ct else none

/-- Case-insensitive variant (Python `re.IGNORECASE`, ASCII case folding). -/
def stripPrefixCIL : List Char → List Char → Option (List Char)
  | [], s => some s
  | _ :: _, [] => none
  | p :: pt, c :: ct => if c.toLower = p.toLower then stripPrefixCIL pt ct else none

/-- First occurrence of `pat` as a substring of `s`:
`some (pre, post)` with `s = pre ++ pat ++ post` and `pre` shortest. -/
def splitFirst (pat : List Char) : List Char → Option (List Char × List Char)
  | [] => match stripPrefixL pat [] with
    | some rest => some ([], rest)
    | none => none
  | c :: t => match stripPrefixL pat (c :: t) with
    | some rest => some ([], rest)
    | none => match splitFirst pat t with
      | some (pre, post) => some (c :: pre, post)
      | none => none

/-- Python `pat in s` (substring containment). -/
def containsSubL (pat s : List Char) : Bool := (splitFirst pat s).isSome

/-- Case-insensitive substring containment. -/
def containsSubCIL (pat s : List Char) : Bool :=
  containsSubL (pat.map Char.toLower) (s.map Char.toLower)

/-- Python `s.startswith(pat)`, used to embed anchored line regexes. -/
def startsWithL (pat s : List Char) : Bool := (stripPrefixL pat s).isSome

/-- Remove trailing whitespace (`str.rstrip()` over a char list). -/
def stripEndL (s : List Char) : List Char :=
  (s.reverse.dropWhile isPySpace).reverse

/-- Python `str.strip()`: drop leading and trailing whitespace. -/
def pythonStrip (s : List Char) : List Char :=
  stripEndL (s.dropWhile isPySpace)

/-- Split on newline characters; always returns at least one (possibly empty)
line, mirroring how Python MULTILINE regexes see the text as lines. -/
def splitLines : List Char → List (List Char)
  | [] => [[]]
  | c :: t =>
    if c = '\n' then [] :: splitLines t
    else match splitLines t with
      | [] => [[c]]
      | l :: ls => (c :: l) :: ls

/-- Rejoin lines with newline characters (inverse of `splitLines`). -/
def joinLines : List (List Char) → List Char
  | [] => []
  | [l] => l
  | l :: ls => l ++ '\n' :: joinLines ls

/-- Embeds `re.sub` of a line pattern with empty replacement under `re.MULTILINE` for the
line-anchored patterns of `clean_email_body`: a line whose content matches
is replaced by an empty line (the newlines are kept). -/
def removeLinesIf (p : List Char → Bool) (s : List Char) : List Char :=
  joinLines ((splitLines s).map (fun l => if p l then [] else l))

/-- The five meta-narration openers of
the MULTILINE removal of meta-narration lines (Let me, I will, Here is and their contracted forms). -/
def aiOpener (l : List Char) : Bool :=
  startsWithL "Let me".data l || startsWithL "I\x27ll".data l ||
  startsWithL "I will".data l || startsWithL "Here\x27s".data l ||
  startsWithL "Here is".data l

/-- Fuelled scan embedding the DOTALL non-greedy removal of think blocks:
repeatedly remove from the first `<think>` through the first following
`</think>`, continuing the scan after the removed block (the replacement is
not rescanned, exactly as `re.sub` behaves). -/
def subThinkF : Nat → List Char → List Char
  | 0, s => s
  | fuel + 1, s =>
    match splitFirst "<think>".data s with
    | none => s
    | some (pre, post) =>
      match splitFirst "</think>".data post with
      | none => s
      | some (_, post2) => pre ++ subThinkF fuel post2

/-- Thinking-block removal with sufficient fuel. -/
def subThink (s : List Char) : List Char := subThinkF s.length s

/-- True when the text still contains a `<think>` later followed by `</think>`,
i.e. when the thinking-block regex has a match. -/
def hasThinkPair (s : List Char) : Bool :=
  match splitFirst "<think>".data s with
  | none => false
  | some (_, post) => (splitFirst "</think>".data post).isSome

/-- Part of the whitespace run after the last newline it contains, if any. -/
def afterLastNewline (ws : List Char) : Option (List Char) :=
  if ws.any (fun c => c = '\n') then
    some ((ws.reverse.takeWhile (fun c => ¬ c = '\n')).reverse)
  else none

/-- Fuelled scan embedding the blank-run substitution (pattern newline-whitespace-newline, replacement two newlines): at each `\n`
the greedy `\s*` extends to the last newline inside the following whitespace
run; the match is replaced by two newlines and scanning continues after it. -/
def collapseF : Nat → List Char → List Char
  | 0, s => s
  | _ + 1, [] => []
  | fuel + 1, c :: rest =>
    if c = '\n' then
      let ws := rest.takeWhile isPySpace
      let rest2 := rest.dropWhile isPySpace
      match afterLastNewline ws with
      | some b => '\n' :: '\n' :: collapseF fuel (b ++ rest2)
      | none => c :: ws ++ collapseF fuel rest2
    else c :: collapseF fuel rest

/-- Blank-run collapsing with sufficient fuel. -/
def collapseBlanks (s : List Char) : List Char := collapseF s.length s

/-- EmailProcessor.clean_email_body on char lists: the six `re.sub`/strip
steps in source order. -/
def cleanL (s : List Char) : List Char :=
  pythonStrip
    (collapseBlanks
      (removeLinesIf (startsWithL "**Category:**".data)
        (removeLinesIf (startsWithL "**Subject:**".data)
          (removeLinesIf (containsSubCIL "thought process".data)
            (removeLinesIf (containsSubCIL "thinking process".data)
              (removeLinesIf aiOpener
                (subThink s)))))))

/-- EmailProcessor.clean_email_body (email_processor.py, lines 149-172). -/
def clean_email_body (s : String) : String := ⟨cleanL s.data⟩

/-! Ollama client: the categorize-response parser and `_generate`. -/

/-- Embeds `re.search`: try the matcher at every start position, leftmost
match wins (the final empty suffix is also a start position). -/
def scanFirst {α : Type} (tryM : List Char → Option α) : List Char → Option α
  | [] => tryM []
  | c :: t =>
    match tryM (c :: t) with
    | some g => some g
    | none => scanFirst tryM t

/-- Match one alternation token case-insensitively at the current position,
returning the raw matched characters (the regex capture group). -/
def ciTokenL (pat s : List Char) : Option (List Char) :=
  let g := s.take pat.length
  if g.map Char.toLower = pat.map Char.toLower then some g else none

/-- Matcher for `Category:\s*(URGENT|IMPORTANT|LOW_PRIORITY)` with
`re.IGNORECASE` at one start position; alternatives tried in pattern order. -/
def tryMatchCategory (s : List Char) : Option (List Char) :=
  match stripPrefixCIL "Category:".data s with
  | none => none
  | some rest =>
    let r := rest.dropWhile isPySpace
    match ciTokenL "URGENT".data r with
    | some g => some g
    | none =>
      match ciTokenL "IMPORTANT".data r with
      | some g => some g
      | none => ciTokenL "LOW_PRIORITY".data r

/-- Value of a decimal digit string (Python `int` on the matched group). -/
def digitsToNat (ds : List Char) : Nat :=
  ds.foldl (fun a c => a * 10 + (c.toNat - 48)) 0

/-- Matcher for `Confidence:\s*(\d+)` (case-sensitive) at one position:
greedy whitespace, then at least one digit. -/
def tryMatchConfidence (s : List Char) : Option Nat :=
  match stripPrefixL "Confidence:".data s with
  | none => none
  | some rest =>
    let ds := (rest.dropWhile isPySpace).takeWhile Char.isDigit
    if ds.isEmpty then none else some (digitsToNat ds)

/-- Matcher for `Rationale:\s*(.*)` at one position: the greedy `\s*` may
cross newlines, then `.*` captures to the end of that line (it can be
empty, so the pattern always matches once the label occurs). -/
def tryMatchRationale (s : List Char) : Option (List Char) :=
  match stripPrefixL "Rationale:".data s with
  | none => none
  | some rest => some ((rest.dropWhile isPySpace).takeWhile (fun c => ¬ c = '\n'))

/-- Result of OllamaClient.categorize_email: category, confidence, rationale. -/
structure CatResult where
  category : String
  confidence : Int
  rationale : String
deriving DecidableEq

/-- OllamaClient.categorize_email (ollama_client.py, lines 59-74): the
parsing of the model response.  The prompt construction and the `_generate`
network call are the external Generation Service; `response` is the raw
text `_generate` returned. -/
def categorize_email (response : String) : CatResult where
  category :=
    match scanFirst tryMatchCategory response.data with
    | some g => ⟨g.map Char.toUpper⟩
    | none => "LOW_PRIORITY"
  confidence :=
    match scanFirst tryMatchConfidence response.data with
    | some n => Int.ofNat n
    | none => 0
  rationale :=
    match scanFirst tryMatchRationale response.data with
    | some g => ⟨pythonStrip g⟩
    | none => ""

/-- Fuelled embedding of Python `s.split(sep)` for nonempty `sep`:
left-to-right non-overlapping splitting. -/
def pySplitF (sep : List Char) : Nat → List Char → List (List Char)
  | 0, s => [s]
  | fuel + 1, s =>
    match splitFirst sep s with
    | none => [s]
    | some (pre, post) => pre :: pySplitF sep fuel post

/-- Python `s.split(sep)` with sufficient fuel. -/
def pySplit (sep s : List Char) : List (List Char) := pySplitF sep s.length s

/-- Python indexing `[-1]`: the last element of a nonempty list. -/
def lastD (d : List Char) : List (List Char) → List Char
  | [] => d
  | [x] => x
  | _ :: x :: xs => lastD d (x :: xs)

/-- OllamaClient._generate (ollama_client.py, lines 158-182).  The network
call is external: `none` models any raised exception (caught, logged,
degraded to `""`), `some resp` a successful completion.  An empty prompt
would make `response.split("")` raise ValueError inside the same `try`,
which the `except` also turns into `""`. -/
def _generate (prompt : String) (callResult : Option String) : String :=
  match callResult with
  | none => ""
  | some resp =>
    match prompt.data with
    | [] => ""
    | p =>
      if containsSubL p resp.data then
        ⟨pythonStrip (lastD [] (pySplit p resp.data))⟩
      else ⟨pythonStrip resp.data⟩

/-! Gmail client: body extraction and the collaborator result shapes. -/

/-- One entry of the payload parts list of a message: its mimeType and the optional
base64url `data` field of its `body` dict. -/
structure MsgPart where
  mimeType : String
  bodyData : Option String
deriving DecidableEq

/-- GmailClient._get_body_from_parts (gmail_client.py, lines 113-127):
concatenates the optional body data field over the `text/plain` parts.
Note the code concatenates the raw `data` fields; it never base64-decodes. -/
def _get_body_from_parts (parts : List MsgPart) : String :=
  parts.foldl
    (fun acc p => if p.mimeType = "text/plain" then acc ++ p.bodyData.getD "" else acc) ""

/-- GmailClient._get_body_from_payload (gmail_client.py, lines 129-139):
the optional body data field of the payload, again without decoding. -/
def _get_body_from_payload (bodyData : Option String) : String := bodyData.getD ""

/-- Value of one base64url alphabet character. -/
def b64UrlVal (c : Char) : Option Nat :=
  if 'A' ≤ c ∧ c ≤ 'Z' then some (c.toNat - 65)
  else if 'a' ≤ c ∧ c ≤ 'z' then some (c.toNat - 97 + 26)
  else if '0' ≤ c ∧ c ≤ '9' then some (c.toNat - 48 + 52)
  else if c = '-' then some 62
  else if c = '_' then some 63
  else none

/-- Regroup a stream of 6-bit values into bytes (most significant first). -/
def b64Bytes : List Nat → Nat → Nat → List Nat
  | [], _, _ => []
  | v :: vs, acc, nbits =>
    let acc2 := acc * 64 + v
    let nb2 := nbits + 6
    if nb2 ≥ 8 then
      acc2 / 2 ^ (nb2 - 8) :: b64Bytes vs (acc2 % 2 ^ (nb2 - 8)) (nb2 - 8)
    else b64Bytes vs acc2 nb2

/-- Modelled from the spec: the base64url decoding of the provider transport
encoding ("body (plain text, decoded from provider transport encoding)"),
which is the step missing from the GmailClient body extraction. -/
def base64UrlDecode (s : String) : Option String :=
  match (s.data.filter (fun c => ¬ c = '=')).mapM b64UrlVal with
  | none => none
  | some vs => some ⟨(b64Bytes vs 0 0).map Char.ofNat⟩

/-! Email processor: draft store, send path and the processing pipeline. -/

/-- The Draft JSON written by EmailProcessor._save_draft (lines 128-147). -/
structure Draft where
  email_id : String
  subject : String
  draft_reply : String
  category : String
  confidence : Int
  rationale : String
  created_at : String
deriving DecidableEq

/-- Result dict of GmailClient.send_email: id, threadId and status sent on
success, or status error with an error message on failure. -/
inductive SendResult where
  | sent (id threadId : String)
  | error (msg : String)
deriving DecidableEq

/-- Result dict of GmailClient.create_draft: `draft_created` or `error`. -/
inductive DraftCallResult where
  | created (id message_id email : String)
  | error (msg : String)
deriving DecidableEq

/-- The id field of the create_draft result: `None` when creation failed. -/
def DraftCallResult.idOpt : DraftCallResult → Option String
  | .created i _ _ => some i
  | .error _ => none

/-- Return dicts of EmailProcessor.send_drafted_email: the not-found /
send-error shape, the preview shape, and the passed-through success shape. -/
inductive ProcResult where
  | errorRes (msg : String)
  | preview (toAddr subject body : String)
  | sentRes (id threadId : String)
deriving DecidableEq

/-- One row of the append-only emails.csv record store (lines 81-94). -/
structure ProcessedRecord where
  id : String
  subject : String
  sender : String
  date : String
  body : String
  category : String
  confidence : Int
  rationale : String
  draft_reply : String
  draft_id : Option String
  processed_at : String
deriving DecidableEq

/-- One fetched email dict (gmail_client.py, lines 103-109). -/
structure EmailMsg where
  id : String
  subject : String
  sender : String
  date : String
  body : String
deriving DecidableEq

/-- The durable state: emails.csv (`none` = the file does not exist),
the active draft files keyed by email id, and the sent/ partition. -/
structure Stores where
  records : Option (List ProcessedRecord)
  drafts : List (String × Draft)
  sentDrafts : List (String × Draft)
deriving DecidableEq

/-- Lookup by key (file `draft_{id}.json` exists?). -/
def alookup {α : Type} : List (String × α) → String → Option α
  | [], _ => none
  | (k, v) :: t, key => if k = key then some v else alookup t key

/-- Delete the file for `key` (keys are filenames, hence unique). -/
def aremove {α : Type} (l : List (String × α)) (key : String) : List (String × α) :=
  l.filter (fun p => ¬ p.1 = key)

/-- Write the file for `key`, overwriting any previous content. -/
def upsert {α : Type} (l : List (String × α)) (key : String) (v : α) : List (String × α) :=
  (key, v) :: aremove l key

/-- Stats dict returned by process_emails and get_daily_stats. -/
structure Stats where
  total_emails : Nat
  categories : List (String × Nat)
  processed_at : String
deriving DecidableEq

/-- `categories[category] += 1` on the three-key dict; the parser guarantees
the key is present (categorize_email only produces the three labels). -/
def bump : List (String × Nat) → String → List (String × Nat)
  | [], _ => []
  | (k, v) :: t, key => if k = key then (k, v + 1) :: t else (k, v) :: bump t key

/-- The zero-initialized three-bucket counter of process_emails (line 54). -/
def initCategories : List (String × Nat) :=
  [("URGENT", 0), ("IMPORTANT", 0), ("LOW_PRIORITY", 0)]

/-- EmailProcessor.send_drafted_email (email_processor.py, lines 174-221).
`sendFn` is the Mailbox collaborator (GmailClient.send_email); the third
component of the result lists the send calls performed (to, subject, body),
so that "never calls the send operation" is expressible. -/
def send_drafted_email (st : Stores) (sendFn : String → String → String → SendResult)
    (draft_id recipient : String) (confirm : Bool) :
    ProcResult × Stores × List (String × String × String) :=
  match alookup st.drafts draft_id with
  | none => (ProcResult.errorRes "Draft not found", st, [])
  | some d =>
    let cleaned := clean_email_body d.draft_reply
    if confirm = false then
      (ProcResult.preview recipient d.subject cleaned, st, [])
    else
      match sendFn recipient d.subject cleaned with
      | SendResult.sent i tid =>
        (ProcResult.sentRes i tid,
         { st with
            drafts := aremove st.drafts draft_id,
            sentDrafts := upsert st.sentDrafts draft_id d },
         [(recipient, d.subject, cleaned)])
      | SendResult.error m =>
        (ProcResult.errorRes m, st, [(recipient, d.subject, cleaned)])

/-- The Processed Record built for one email (email_processor.py, lines
81-89): the original email fields merged with the processing outcome. -/
def procRecord (catResp replyResp : EmailMsg → String)
    (draftFn : String → String → String → DraftCallResult) (now : String)
    (e : EmailMsg) : ProcessedRecord :=
  let c := categorize_email (catResp e)
  let cleaned := clean_email_body (replyResp e)
  let dres := draftFn e.sender ("Re: " ++ e.subject) cleaned
  { id := e.id, subject := e.subject, sender := e.sender, date := e.date,
    body := e.body, category := c.category, confidence := c.confidence,
    rationale := c.rationale, draft_reply := cleaned,
    draft_id := dres.idOpt, processed_at := now }

/-- The Draft JSON written for one email by _save_draft (lines 135-143):
note the subject is the plain email subject, without the "Re: " prefix. -/
def procDraft (catResp replyResp : EmailMsg → String) (now : String)
    (e : EmailMsg) : Draft :=
  let c := categorize_email (catResp e)
  let cleaned := clean_email_body (replyResp e)
  { email_id := e.id, subject := e.subject, draft_reply := cleaned,
    category := c.category, confidence := c.confidence,
    rationale := c.rationale, created_at := now }

/-- The per-email loop of EmailProcessor.process_emails (lines 56-101).
`catResp`/`replyResp` give the Generation Service completions for the two
prompts of each email; `draftFn` is GmailClient.create_draft.  Returns the
final stores, the create_draft calls performed (to, subject, body) in
order, and the updated category counters. -/
def processGo (catResp replyResp : EmailMsg → String)
    (draftFn : String → String → String → DraftCallResult) (now : String) :
    List EmailMsg → Stores → List (String × Nat) →
      Stores × List (String × String × String) × List (String × Nat)
  | [], st, cats => (st, [], cats)
  | e :: rest, st, cats =>
    let c := categorize_email (catResp e)
    let cats2 := bump cats c.category
    let cleaned := clean_email_body (replyResp e)
    let st2 : Stores :=
      { st with
          records := some (st.records.getD [] ++ [procRecord catResp replyResp draftFn now e]),
          drafts := upsert st.drafts e.id (procDraft catResp replyResp now e) }
    let r := processGo catResp replyResp draftFn now rest st2 cats2
    (r.1, (e.sender, "Re: " ++ e.subject, cleaned) :: r.2.1, r.2.2)

/-- EmailProcessor.process_emails (lines 39-110): one record and one draft
per fetched email; `total_emails = len(processed_emails)`, which is one per
fetched email. -/
def process_emails (emails : List EmailMsg) (catResp replyResp : EmailMsg → String)
    (draftFn : String → String → String → DraftCallResult) (now : String)
    (st : Stores) : Stats × Stores × List (String × String × String) :=
  let r := processGo catResp replyResp draftFn now emails st initCategories
  (⟨emails.length, r.2.2, now⟩, r.1, r.2.1)

/-- The pandas value_counts of the category column, as a dict: the map from each distinct
category present to its number of occurrences.  pandas orders the dict by
descending count; only the key set and the values are observable through
the claims, so the list order here is not significant. -/
def valueCounts (l : List String) : List (String × Nat) :=
  l.dedup.map (fun c => (c, l.count c))

/-- EmailProcessor.get_daily_stats (email_processor.py, lines 223-246):
`records = none` models a missing emails.csv. -/
def get_daily_stats (records : Option (List ProcessedRecord)) (now : String) : Stats :=
  match records with
  | none => ⟨0, initCategories, now⟩
  | some recs => ⟨recs.length, valueCounts (recs.map (fun r => r.category)), now⟩

/-- A line that any of the four line-removal steps of clean_email_body would
erase: meta-narration opener, thinking/thought-process indicator, or a
bolded Subject/Category metadata label. -/
def lineArtifact (l : List Char) : Bool :=
  aiOpener l || containsSubCIL "thinking process".data l ||
  containsSubCIL "thought process".data l ||
  startsWithL "**Subject:**".data l || startsWithL "**Category:**".data l

/-! Lemmas about the line decomposition used by the MULTILINE substitutions. -/

theorem splitLines_ne_nil : ∀ s : List Char, splitLines s ≠ [] := by
  intro s
  cases s with
  | nil => simp [splitLines]
  | cons c t =>
    by_cases hc : c = '\n'
    · simp [splitLines, hc]
    · simp only [splitLines, hc, if_false]
      cases h : splitLines t <;> simp

theorem joinLines_cons_cons (c : Char) (l : List Char) (ls : List (List Char)) :
    joinLines ((c :: l) :: ls) = c :: joinLines (l :: ls) := by
  cases ls <;> simp [joinLines]

theorem joinLines_splitLines : ∀ s : List Char, joinLines (splitLines s) = s := by
  intro s
  induction s with
  | nil => simp [splitLines, joinLines]
  | cons c t ih =>
    obtain ⟨l, ls, h2⟩ : ∃ l ls, splitLines t = l :: ls := by
      cases h : splitLines t with
      | nil => exact absurd h (splitLines_ne_nil t)
      | cons l ls => exact ⟨l, ls, rfl⟩
    by_cases hc : c = '\n'
    · subst hc
      have h1 : splitLines ('\n' :: t) = [] :: splitLines t := by simp [splitLines]
      rw [h1, h2]
      show [] ++ '\n' :: joinLines (l :: ls) = '\n' :: t
      rw [← h2, ih]
      simp
    · have h1 : splitLines (c :: t) = (c :: l) :: ls := by
        simp only [splitLines, hc, if_false, h2]
      rw [h1, joinLines_cons_cons, ← h2, ih]

theorem removeLinesIf_id (p : List Char → Bool) (s : List Char)
    (h : ∀ l ∈ splitLines s, p l = false) : removeLinesIf p s = s := by
  unfold removeLinesIf
  have hmap : (splitLines s).map (fun l => if p l then [] else l) = splitLines s := by
    have := List.map_congr_left (l := splitLines s)
      (f := fun l => if p l then [] else l) (g := id) (fun l hl => by simp [h l hl])
    rw [this, List.map_id]
  rw [hmap, joinLines_splitLines]

/-! Lemmas about strip. -/

theorem dropWhile_dropWhile (p : Char → Bool) :
    ∀ l : List Char, (l.dropWhile p).dropWhile p = l.dropWhile p := by
  intro l
  induction l with
  | nil => rfl
  | cons c t ih =>
    by_cases hc : p c = true
    · simp [List.dropWhile_cons, hc, ih]
    · simp [List.dropWhile_cons, hc]

theorem dropWhile_append_single (p : Char → Bool) (c : Char) (hc : p c = false) :
    ∀ xs : List Char, (xs ++ [c]).dropWhile p = xs.dropWhile p ++ [c] := by
  intro xs
  induction xs with
  | nil => simp [List.dropWhile_cons, hc]
  | cons x t ih =>
    by_cases hx : p x = true
    · simp [List.dropWhile_cons, hx, ih]
    · simp [List.dropWhile_cons, hx]

theorem length_dropWhile_le (p : Char → Bool) :
    ∀ l : List Char, (l.dropWhile p).length ≤ l.length := by
  intro l
  induction l with
  | nil => simp
  | cons c t ih =>
    by_cases hc : p c = true
    · rw [List.dropWhile_cons, if_pos hc]
      exact Nat.le_trans ih (Nat.le_succ _)
    · rw [List.dropWhile_cons, if_neg hc]

theorem head_not_of_dropWhile_fix (p : Char → Bool) (c : Char) (t : List Char)
    (h : (c :: t).dropWhile p = c :: t) : p c = false := by
  cases hpc : p c with
  | false => rfl
  | true =>
    exfalso
    rw [List.dropWhile_cons, if_pos hpc] at h
    have hlen := congrArg List.length h
    have hle := length_dropWhile_le p t
    simp at hlen
    omega

theorem stripEndL_stripEndL (k : List Char) : stripEndL (stripEndL k) = stripEndL k := by
  unfold stripEndL
  rw [List.reverse_reverse, dropWhile_dropWhile]

theorem dropWhile_stripEndL (m : List Char) (hm : m.dropWhile isPySpace = m) :
    (stripEndL m).dropWhile isPySpace = stripEndL m := by
  cases m with
  | nil => rfl
  | cons c t =>
    have hc : isPySpace c = false := head_not_of_dropWhile_fix _ _ _ hm
    have h1 : stripEndL (c :: t) = c :: (t.reverse.dropWhile isPySpace).reverse := by
      unfold stripEndL
      rw [List.reverse_cons, dropWhile_append_single _ _ hc, List.reverse_append]
      simp
    rw [h1, List.dropWhile_cons, hc]
    simp

theorem pythonStrip_idem (s : List Char) : pythonStrip (pythonStrip s) = pythonStrip s := by
  unfold pythonStrip
  rw [dropWhile_stripEndL _ (dropWhile_dropWhile _ _), stripEndL_stripEndL]

theorem pythonStrip_cleanL (x : List Char) : pythonStrip (cleanL x) = cleanL x := by
  unfold cleanL
  rw [pythonStrip_idem]

/-! Thinking-block removal is the identity when no block pair remains. -/

theorem subThinkF_id (s : List Char) (h : hasThinkPair s = false) :
    ∀ n : Nat, subThinkF n s = s := by
  intro n
  cases n with
  | zero => rfl
  | succ m =>
    unfold hasThinkPair at h
    cases h1 : splitFirst "<think>".data s with
    | none => simp [subThinkF, h1]
    | some pr =>
      obtain ⟨pre, post⟩ := pr
      rw [h1] at h
      simp only [] at h
      cases h2 : splitFirst "</think>".data post with
      | none => simp [subThinkF, h1, h2]
      | some _ => rw [h2] at h; simp at h

theorem subThink_id (s : List Char) (h : hasThinkPair s = false) : subThink s = s :=
  subThinkF_id s h _

theorem cleanL_idem_of_stable (l : List Char)
    (h1 : hasThinkPair (cleanL l) = false)
    (h2 : ∀ m ∈ splitLines (cleanL l), lineArtifact m = false)
    (h3 : collapseBlanks (cleanL l) = cleanL l) :
    cleanL (cleanL l) = cleanL l := by
  have hsplit : ∀ m ∈ splitLines (cleanL l),
      aiOpener m = false ∧ containsSubCIL "thinking process".data m = false ∧
      containsSubCIL "thought process".data m = false ∧
      startsWithL "**Subject:**".data m = false ∧
      startsWithL "**Category:**".data m = false := by
    intro m hm
    have h := h2 m hm
    unfold lineArtifact at h
    simp at h
    exact ⟨h.1.1.1.1, h.1.1.1.2, h.1.1.2, h.1.2, h.2⟩
  conv_lhs => rw [cleanL]
  rw [subThink_id _ h1]
  rw [removeLinesIf_id _ _ (fun m hm => (hsplit m hm).1)]
  rw [removeLinesIf_id _ _ (fun m hm => (hsplit m hm).2.1)]
  rw [removeLinesIf_id _ _ (fun m hm => (hsplit m hm).2.2.1)]
  rw [removeLinesIf_id _ _ (fun m hm => (hsplit m hm).2.2.2.1)]
  rw [removeLinesIf_id _ _ (fun m hm => (hsplit m hm).2.2.2.2)]
  rw [h3]
  exact pythonStrip_cleanL l

set_option maxHeartbeats 2000000 in
/-- C1 (corrected): the response cleaner is NOT idempotent in general.
Removing the first thinking block can splice the surrounding text into a
new `<think>...</think>` pair, which only a second cleaning removes:
cleaning this input yields the 16 characters of a fresh think block, and
cleaning again yields the empty string. -/
theorem C1_counterexample :
    clean_email_body (clean_email_body "<thi<think>a</think>nk>b</think>") ≠
      clean_email_body "<thi<think>a</think>nk>b</think>" := by decide

/-- C1 (amended): cleaning is idempotent on every input whose cleaned text
contains no residual artifact: no remaining `<think>...</think>` pair, no
line that any of the line-removal patterns matches, and no collapsible
blank run (blank-line collapsing leaves it unchanged).  Outside this set
the claim fails, see the counterexample. -/
theorem C1_clean_idempotent_on_stable (x : String)
    (h1 : hasThinkPair (clean_email_body x).data = false)
    (h2 : ∀ m ∈ splitLines (clean_email_body x).data, lineArtifact m = false)
    (h3 : collapseBlanks (clean_email_body x).data = (clean_email_body x).data) :
    clean_email_body (clean_email_body x) = clean_email_body x := by
  have hd : ∀ y : String, (clean_email_body y).data = cleanL y.data := by
    intro y
    rw [show clean_email_body y = ⟨cleanL y.data⟩ from rfl]
  rw [hd x] at h1 h2 h3
  rw [show clean_email_body (clean_email_body x) = ⟨cleanL (clean_email_body x).data⟩ from rfl,
      hd x, show clean_email_body x = ⟨cleanL x.data⟩ from rfl]
  exact congrArg String.mk (cleanL_idem_of_stable x.data h1 h2 h3)

/-! Characterization of the `re.search` position scan. -/

theorem drop_eq_nil_of_ge : ∀ (s : List Char) (i : Nat), s.length ≤ i → s.drop i = [] := by
  intro s
  induction s with
  | nil => intro i _; simp
  | cons c t ih =>
    intro i hi
    cases i with
    | zero => simp at hi
    | succ j =>
      rw [List.drop_succ_cons]
      exact ih j (by simpa using hi)

theorem tryNone_of_bounded {α : Type} (tryM : List Char → Option α) (s : List Char)
    (h : ∀ i, i ≤ s.length → tryM (s.drop i) = none) : ∀ i, tryM (s.drop i) = none := by
  intro i
  by_cases hle : i ≤ s.length
  · exact h i hle
  · rw [drop_eq_nil_of_ge s i (Nat.le_of_lt (Nat.lt_of_not_le hle))]
    have h2 := h s.length Nat.le.refl
    rwa [List.drop_length] at h2

theorem scanFirst_eq_none {α : Type} (tryM : List Char → Option α) :
    ∀ s : List Char, (∀ i, tryM (s.drop i) = none) → scanFirst tryM s = none := by
  intro s
  induction s with
  | nil =>
    intro h
    simpa [scanFirst] using h 0
  | cons c t ih =>
    intro h
    have h0 : tryM (c :: t) = none := by simpa using h 0
    have ht : ∀ i, tryM (t.drop i) = none := by
      intro i
      simpa [List.drop_succ_cons] using h (i + 1)
    simp [scanFirst, h0]
    exact ih ht

theorem scanFirst_first {α : Type} (tryM : List Char → Option α) :
    ∀ (s : List Char) (i : Nat) (g : α), tryM (s.drop i) = some g →
      (∀ j, j < i → tryM (s.drop j) = none) → scanFirst tryM s = some g := by
  intro s
  induction s with
  | nil =>
    intro i g hg _
    simp at hg
    simpa [scanFirst] using hg
  | cons c t ih =>
    intro i g hg hlt
    cases i with
    | zero =>
      simp at hg
      simp [scanFirst, hg]
    | succ i2 =>
      have h0 : tryM (c :: t) = none := by simpa using hlt 0 (Nat.succ_pos _)
      rw [List.drop_succ_cons] at hg
      simp [scanFirst, h0]
      exact ih i2 g hg (fun j hj => by
        simpa [List.drop_succ_cons] using hlt (j + 1) (Nat.succ_lt_succ hj))

/-! Projection equations for the categorize parser. -/

theorem categorize_category_eq (r : String) :
    (categorize_email r).category =
      (match scanFirst tryMatchCategory r.data with
        | some g => (⟨g.map Char.toUpper⟩ : String)
        | none => "LOW_PRIORITY") := rfl

theorem categorize_confidence_eq (r : String) :
    (categorize_email r).confidence =
      (match scanFirst tryMatchConfidence r.data with
        | some n => Int.ofNat n
        | none => 0) := rfl

theorem categorize_rationale_eq (r : String) :
    (categorize_email r).rationale =
      (match scanFirst tryMatchRationale r.data with
        | some g => (⟨pythonStrip g⟩ : String)
        | none => "") := rfl

theorem categorize_confidence_nonneg (r : String) : 0 ≤ (categorize_email r).confidence := by
  rw [categorize_confidence_eq]
  cases h : scanFirst tryMatchConfidence r.data with
  | none => simp
  | some n => simp

/-- C2 (counterexample): the response consists of the single token `urgent`,
which matches URGENT case-insensitively, so by the claim the category should
be URGENT; the regex in the code additionally requires a `Category:` label and
therefore falls back to LOW_PRIORITY. -/
theorem C2_counterexample :
    (categorize_email "urgent").category = "LOW_PRIORITY" ∧
    (categorize_email "urgent").category ≠ "URGENT" := by decide

/-- C2 (amended): classification parsing is lenient with per-field safe
defaults, where each field is keyed to its own label.  The category is the
uppercased token of the first position where `Category:` (case-insensitive)
followed by optional whitespace and one of URGENT, IMPORTANT, LOW_PRIORITY
matches, defaulting to LOW_PRIORITY when no position matches; confidence is
the first integer after a case-sensitive `Confidence:` label, defaulting to
0; rationale is the text captured after the first `Rationale:` label (greedy
whitespace, then to end of line), trimmed, defaulting to the empty string.
The scenario response of the spec parses as stated. -/
theorem C2_categorize_parsing :
    (categorize_email "Category: urgent\nConfidence: 87\nRationale: deadline today" =
      ⟨"URGENT", 87, "deadline today"⟩) ∧
    (∀ r : String, (∀ i, i ≤ r.data.length → tryMatchCategory (r.data.drop i) = none) →
      (categorize_email r).category = "LOW_PRIORITY") ∧
    (∀ (r : String) (i : Nat) (g : List Char), tryMatchCategory (r.data.drop i) = some g →
      (∀ j, j < i → tryMatchCategory (r.data.drop j) = none) →
      (categorize_email r).category = ⟨g.map Char.toUpper⟩) ∧
    (∀ r : String, (∀ i, i ≤ r.data.length → tryMatchConfidence (r.data.drop i) = none) →
      (categorize_email r).confidence = 0) ∧
    (∀ (r : String) (i n : Nat), tryMatchConfidence (r.data.drop i) = some n →
      (∀ j, j < i → tryMatchConfidence (r.data.drop j) = none) →
      (categorize_email r).confidence = Int.ofNat n) ∧
    (∀ r : String, (∀ i, i ≤ r.data.length → tryMatchRationale (r.data.drop i) = none) →
      (categorize_email r).rationale = "") ∧
    (∀ (r : String) (i : Nat) (g : List Char), tryMatchRationale (r.data.drop i) = some g →
      (∀ j, j < i → tryMatchRationale (r.data.drop j) = none) →
      (categorize_email r).rationale = ⟨pythonStrip g⟩) := by
  refine ⟨by decide, ?_, ?_, ?_, ?_, ?_, ?_⟩
  · intro r h
    rw [categorize_category_eq,
        scanFirst_eq_none _ _ (tryNone_of_bounded _ _ h)]
  · intro r i g hg hlt
    rw [categorize_category_eq, scanFirst_first _ _ i g hg hlt]
  · intro r h
    rw [categorize_confidence_eq,
        scanFirst_eq_none _ _ (tryNone_of_bounded _ _ h)]
  · intro r i n hg hlt
    rw [categorize_confidence_eq, scanFirst_first _ _ i n hg hlt]
  · intro r h
    rw [categorize_rationale_eq,
        scanFirst_eq_none _ _ (tryNone_of_bounded _ _ h)]
  · intro r i g hg hlt
    rw [categorize_rationale_eq, scanFirst_first _ _ i g hg hlt]

/-- C2 witness: the defaults fire on a label-free response, and the
labelled first match determines the category (uppercased). -/
theorem C2_witness :
    (categorize_email "hello").category = "LOW_PRIORITY" ∧
    (categorize_email "Category: UrGeNt").category = "URGENT" := by
  constructor
  · exact C2_categorize_parsing.2.1 "hello" (by decide)
  · have h := C2_categorize_parsing.2.2.1 "Category: UrGeNt" 0 "UrGeNt".data
      (by decide) (fun j hj => absurd hj (Nat.not_lt_zero j))
    rw [h]
    decide

/-- C3 (counterexample): the response `Confidence: 87` has no parseable
category token (the category scan fails everywhere), yet the result is not
`(LOW_PRIORITY, 0, "")`: the confidence field is parsed independently and
comes out as 87. -/
theorem C3_counterexample :
    scanFirst tryMatchCategory ("Confidence: 87" : String).data = none ∧
    categorize_email "Confidence: 87" = ⟨"LOW_PRIORITY", 87, ""⟩ ∧
    (categorize_email "Confidence: 87").confidence ≠ 0 := by decide

/-- C3 (amended): when the category pattern matches nowhere the category is
exactly LOW_PRIORITY; confidence and rationale are parsed independently and
default to 0 and the empty string exactly when their own patterns match
nowhere. -/
theorem C3_safe_defaults :
    (∀ r : String, (∀ i, i ≤ r.data.length → tryMatchCategory (r.data.drop i) = none) →
      (categorize_email r).category = "LOW_PRIORITY") ∧
    (∀ r : String, (∀ i, i ≤ r.data.length → tryMatchConfidence (r.data.drop i) = none) →
      (categorize_email r).confidence = 0) ∧
    (∀ r : String, (∀ i, i ≤ r.data.length → tryMatchRationale (r.data.drop i) = none) →
      (categorize_email r).rationale = "") := by
  refine ⟨?_, ?_, ?_⟩
  · intro r h
    rw [categorize_category_eq, scanFirst_eq_none _ _ (tryNone_of_bounded _ _ h)]
  · intro r h
    rw [categorize_confidence_eq, scanFirst_eq_none _ _ (tryNone_of_bounded _ _ h)]
  · intro r h
    rw [categorize_rationale_eq, scanFirst_eq_none _ _ (tryNone_of_bounded _ _ h)]

/-- C3 witness: on a response with none of the three labels, all three safe
defaults fire. -/
theorem C3_witness :
    (categorize_email "hello").category = "LOW_PRIORITY" ∧
    (categorize_email "hello").confidence = 0 ∧
    (categorize_email "hello").rationale = "" :=
  ⟨C3_safe_defaults.1 "hello" (by decide), C3_safe_defaults.2.1 "hello" (by decide),
   C3_safe_defaults.2.2 "hello" (by decide)⟩

/-! Record-store shape of the processing loop. -/

theorem procRecord_confidence (cr rr : EmailMsg → String)
    (df : String → String → String → DraftCallResult) (now : String) (e : EmailMsg) :
    (procRecord cr rr df now e).confidence = (categorize_email (cr e)).confidence := rfl

theorem processGo_records_append (cr rr : EmailMsg → String)
    (df : String → String → String → DraftCallResult) (now : String) :
    ∀ (emails : List EmailMsg) (st : Stores) (cats : List (String × Nat)),
      (processGo cr rr df now emails st cats).1.records.getD [] =
        st.records.getD [] ++ emails.map (procRecord cr rr df now) := by
  intro emails
  induction emails with
  | nil => intro st cats; simp [processGo]
  | cons e rest ih =>
    intro st cats
    simp only [processGo]
    rw [ih]
    simp

/-- C8 (counterexample): confidence is not bounded by 100: the parser takes
the first integer after `Confidence:` with no range check, so the response
`Confidence: 250` yields confidence 250. -/
theorem C8_counterexample :
    (categorize_email "Confidence: 250").confidence = 250 ∧
    ¬ (categorize_email "Confidence: 250").confidence ≤ 100 := by decide

/-- C8 (amended): in every classification result, and in every Processed
Record the pipeline appends, the confidence field is a nonnegative integer;
the parser performs no upper-bound validation, so values above 100 (such as
250) pass through unchanged. -/
theorem C8_confidence_nonneg :
    (∀ r : String, 0 ≤ (categorize_email r).confidence) ∧
    ((categorize_email "Confidence: 250").confidence = 250) ∧
    (∀ (emails : List EmailMsg) (cr rr : EmailMsg → String)
        (df : String → String → String → DraftCallResult) (now : String)
        (st : Stores) (q : ProcessedRecord),
      (∀ q2 ∈ st.records.getD [], 0 ≤ q2.confidence) →
      q ∈ (process_emails emails cr rr df now st).2.1.records.getD [] →
      0 ≤ q.confidence) := by
  refine ⟨categorize_confidence_nonneg, by decide, ?_⟩
  intro emails cr rr df now st q hst hq
  have hrec : (process_emails emails cr rr df now st).2.1.records.getD [] =
      st.records.getD [] ++ emails.map (procRecord cr rr df now) := by
    simp only [process_emails]
    exact processGo_records_append cr rr df now emails st initCategories
  rw [hrec] at hq
  rcases List.mem_append.mp hq with h | h
  · exact hst q h
  · obtain ⟨e, _, heq⟩ := List.mem_map.mp h
    rw [← heq, procRecord_confidence]
    exact categorize_confidence_nonneg _

/-! Association-list lemmas for the draft store. -/

theorem alookup_aremove_self {α : Type} : ∀ (l : List (String × α)) (k : String),
    alookup (aremove l k) k = none := by
  intro l k
  induction l with
  | nil => rfl
  | cons p t ih =>
    obtain ⟨k1, v⟩ := p
    by_cases hk : k1 = k
    · simpa [aremove, List.filter_cons, hk] using ih
    · simpa [aremove, List.filter_cons, hk, alookup] using ih

theorem alookup_upsert_self {α : Type} (l : List (String × α)) (k : String) (v : α) :
    alookup (upsert l k v) k = some v := by
  simp [upsert, alookup]

theorem mem_aremove {α : Type} {l : List (String × α)} {k : String} {x : String × α}
    (h : x ∈ aremove l k) : x ∈ l :=
  (List.mem_filter.mp h).1

/-- C4 (confirmed): with confirm false, send_drafted_email never mutates the
stores and never calls the send operation, and when the draft exists the
result is the preview of (recipient, stored subject, cleaned body). -/
theorem C4_preview_dry_run :
    (∀ (st : Stores) (f : String → String → String → SendResult) (id rcpt : String),
      (send_drafted_email st f id rcpt false).2.1 = st ∧
      (send_drafted_email st f id rcpt false).2.2 = []) ∧
    (∀ (st : Stores) (f : String → String → String → SendResult) (id rcpt : String)
        (d : Draft), alookup st.drafts id = some d →
      (send_drafted_email st f id rcpt false).1 =
        ProcResult.preview rcpt d.subject (clean_email_body d.draft_reply)) := by
  constructor
  · intro st f id rcpt
    cases h : alookup st.drafts id with
    | none => simp [send_drafted_email, h]
    | some d => simp [send_drafted_email, h]
  · intro st f id rcpt d h
    simp [send_drafted_email, h]

/-- C4 witness: previewing a concrete stored draft returns its subject and
cleaned body without sending. -/
theorem C4_witness :
    (send_drafted_email ⟨none, [("e1", ⟨"e1", "Subj", "Body", "URGENT", 90, "r", "t"⟩)], []⟩
        (fun _ _ _ => SendResult.error "boom") "e1" "alice" false).1 =
      ProcResult.preview "alice" "Subj" (clean_email_body "Body") :=
  C4_preview_dry_run.2 _ _ _ _ ⟨"e1", "Subj", "Body", "URGENT", 90, "r", "t"⟩ (by decide)

/-- C5 (confirmed): the confirmed-send lifecycle.  A missing draft yields
the distinguishable not-found result; a successful send relocates the draft
from the active to the sent partition so that a second confirmed send on
the same identifier returns the not-found result; a failed send leaves the
stores untouched and surfaces the error result unchanged. -/
theorem C5_confirmed_send_lifecycle :
    (∀ (st : Stores) (f : String → String → String → SendResult) (id rcpt : String),
      alookup st.drafts id = none →
      send_drafted_email st f id rcpt true = (ProcResult.errorRes "Draft not found", st, [])) ∧
    (∀ (st : Stores) (f : String → String → String → SendResult) (id rcpt : String)
        (d : Draft) (sid tid : String),
      alookup st.drafts id = some d →
      f rcpt d.subject (clean_email_body d.draft_reply) = SendResult.sent sid tid →
      (send_drafted_email st f id rcpt true).1 = ProcResult.sentRes sid tid ∧
      alookup (send_drafted_email st f id rcpt true).2.1.drafts id = none ∧
      alookup (send_drafted_email st f id rcpt true).2.1.sentDrafts id = some d ∧
      (∀ (f2 : String → String → String → SendResult) (rcpt2 : String),
        (send_drafted_email (send_drafted_email st f id rcpt true).2.1 f2 id rcpt2 true).1 =
          ProcResult.errorRes "Draft not found")) ∧
    (∀ (st : Stores) (f : String → String → String → SendResult) (id rcpt : String)
        (d : Draft) (msg : String),
      alookup st.drafts id = some d →
      f rcpt d.subject (clean_email_body d.draft_reply) = SendResult.error msg →
      (send_drafted_email st f id rcpt true).1 = ProcResult.errorRes msg ∧
      (send_drafted_email st f id rcpt true).2.1 = st) := by
  refine ⟨?_, ?_, ?_⟩
  · intro st f id rcpt h
    simp [send_drafted_email, h]
  · intro st f id rcpt d sid tid h hf
    have hsd : send_drafted_email st f id rcpt true =
        (ProcResult.sentRes sid tid,
         { st with drafts := aremove st.drafts id,
                   sentDrafts := upsert st.sentDrafts id d },
         [(rcpt, d.subject, clean_email_body d.draft_reply)]) := by
      simp [send_drafted_email, h, hf]
    refine ⟨by rw [hsd], by rw [hsd]; exact alookup_aremove_self _ _,
            by rw [hsd]; exact alookup_upsert_self _ _ _, ?_⟩
    intro f2 rcpt2
    rw [hsd]
    have hnone : alookup (aremove st.drafts id) id = none := alookup_aremove_self _ _
    simp [send_drafted_email, hnone]
  · intro st f id rcpt d msg h hf
    constructor <;> simp [send_drafted_email, h, hf]

/-- C5 witness: a concrete one-draft store walked through the lifecycle:
successful send relocates the draft, and a second send is not found. -/
theorem C5_witness :
    (send_drafted_email ⟨none, [("e1", ⟨"e1", "Subj", "Body", "URGENT", 90, "r", "t"⟩)], []⟩
        (fun _ _ _ => SendResult.sent "m" "th") "e1" "bob" true).1 =
      ProcResult.sentRes "m" "th" ∧
    alookup ((send_drafted_email ⟨none, [("e1", ⟨"e1", "Subj", "Body", "URGENT", 90, "r", "t"⟩)], []⟩
        (fun _ _ _ => SendResult.sent "m" "th") "e1" "bob" true).2.1.drafts) "e1" = none ∧
    (∀ (f2 : String → String → String → SendResult) (rcpt2 : String),
      (send_drafted_email ((send_drafted_email
          ⟨none, [("e1", ⟨"e1", "Subj", "Body", "URGENT", 90, "r", "t"⟩)], []⟩
          (fun _ _ _ => SendResult.sent "m" "th") "e1" "bob" true).2.1) f2 "e1" rcpt2 true).1 =
        ProcResult.errorRes "Draft not found") := by
  have h := C5_confirmed_send_lifecycle.2.1
    ⟨none, [("e1", ⟨"e1", "Subj", "Body", "URGENT", 90, "r", "t"⟩)], []⟩
    (fun _ _ _ => SendResult.sent "m" "th") "e1" "bob"
    ⟨"e1", "Subj", "Body", "URGENT", 90, "r", "t"⟩ "m" "th" (by decide) rfl
  exact ⟨h.1, h.2.1, h.2.2.2⟩

/-! Category-counter and call-log lemmas for the pipeline. -/

theorem bump_keys : ∀ (l : List (String × Nat)) (k : String),
    (bump l k).map Prod.fst = l.map Prod.fst := by
  intro l k
  induction l with
  | nil => rfl
  | cons p t ih =>
    obtain ⟨k1, v⟩ := p
    by_cases hk : k1 = k
    · simp [bump, hk]
    · simp [bump, hk, ih]

theorem processGo_cats_keys (cr rr : EmailMsg → String)
    (df : String → String → String → DraftCallResult) (now : String) :
    ∀ (emails : List EmailMsg) (st : Stores) (cats : List (String × Nat)),
      ((processGo cr rr df now emails st cats).2.2).map Prod.fst = cats.map Prod.fst := by
  intro emails
  induction emails with
  | nil => intro st cats; simp [processGo]
  | cons e rest ih =>
    intro st cats
    simp only [processGo]
    rw [ih]
    exact bump_keys _ _

theorem processGo_calls (cr rr : EmailMsg → String)
    (df : String → String → String → DraftCallResult) (now : String) :
    ∀ (emails : List EmailMsg) (st : Stores) (cats : List (String × Nat)),
      (processGo cr rr df now emails st cats).2.1 =
        emails.map (fun e => (e.sender, "Re: " ++ e.subject, clean_email_body (rr e))) := by
  intro emails
  induction emails with
  | nil => intro st cats; simp [processGo]
  | cons e rest ih =>
    intro st cats
    simp only [processGo]
    rw [ih]
    simp

theorem processGo_drafts_mem (cr rr : EmailMsg → String)
    (df : String → String → String → DraftCallResult) (now : String) :
    ∀ (emails : List EmailMsg) (st : Stores) (cats : List (String × Nat))
      (k : String) (d : Draft),
      (k, d) ∈ (processGo cr rr df now emails st cats).1.drafts →
      (k, d) ∈ st.drafts ∨ ∃ e ∈ emails, e.id = k ∧ d = procDraft cr rr now e := by
  intro emails
  induction emails with
  | nil =>
    intro st cats k d h
    simp [processGo] at h
    exact Or.inl h
  | cons e rest ih =>
    intro st cats k d h
    simp only [processGo] at h
    rcases ih _ _ k d h with h2 | h2
    · rcases List.mem_cons.mp h2 with h3 | h3
      · right
        refine ⟨e, List.mem_cons_self e rest, ?_⟩
        have hk := congrArg Prod.fst h3
        have hd := congrArg Prod.snd h3
        simp at hk hd
        exact ⟨hk.symm, hd⟩
      · exact Or.inl (mem_aremove h3)
    · obtain ⟨e2, he2, hrest⟩ := h2
      exact Or.inr ⟨e2, List.mem_cons_of_mem e he2, hrest⟩

theorem procDraft_subject (cr rr : EmailMsg → String) (now : String) (e : EmailMsg) :
    (procDraft cr rr now e).subject = e.subject := rfl

theorem procDraft_reply (cr rr : EmailMsg → String) (now : String) (e : EmailMsg) :
    (procDraft cr rr now e).draft_reply = clean_email_body (rr e) := rfl

/-- C6 (confirmed): get_daily_stats on a missing store returns zeroed stats
with all three categories present; on an existing store it returns the
record count as total and a category map containing exactly the categories
present in history with their multiplicities (no zero-fill) — unlike the
always-three-bucket mapping process_emails returns. -/
theorem C6_daily_stats :
    (∀ now : String, get_daily_stats none now =
      ⟨0, [("URGENT", 0), ("IMPORTANT", 0), ("LOW_PRIORITY", 0)], now⟩) ∧
    (∀ (recs : List ProcessedRecord) (now : String),
      (get_daily_stats (some recs) now).total_emails = recs.length) ∧
    (∀ (recs : List ProcessedRecord) (now : String) (c : String) (n : Nat),
      (c, n) ∈ (get_daily_stats (some recs) now).categories ↔
        c ∈ recs.map (fun q => q.category) ∧
          n = (recs.map (fun q => q.category)).count c) ∧
    ((get_daily_stats (some [⟨"i", "s", "snd", "d", "b", "URGENT", 90, "r", "rep", none, "t"⟩])
        "t").categories = [("URGENT", 1)]) ∧
    (∀ (emails : List EmailMsg) (cr rr : EmailMsg → String)
        (df : String → String → String → DraftCallResult) (now : String) (st : Stores),
      ((process_emails emails cr rr df now st).1.categories).map Prod.fst =
        ["URGENT", "IMPORTANT", "LOW_PRIORITY"]) := by
  refine ⟨fun now => rfl, fun recs now => rfl, ?_, by decide, ?_⟩
  · intro recs now c n
    simp only [get_daily_stats, valueCounts]
    constructor
    · intro h
      obtain ⟨c2, hc2, heq⟩ := List.mem_map.mp h
      have hc := congrArg Prod.fst heq
      have hn := congrArg Prod.snd heq
      simp at hc hn
      subst hc
      exact ⟨List.mem_dedup.mp hc2, hn.symm⟩
    · rintro ⟨hc, hn⟩
      exact List.mem_map.mpr ⟨c, List.mem_dedup.mpr hc, by rw [hn]⟩
  · intro emails cr rr df now st
    simp only [process_emails]
    rw [processGo_cats_keys]
    rfl

/-- C10 (confirmed): the provider draft created during processing is
addressed to the sender with subject "Re: " + original subject, while the
persisted Draft records the unprefixed original subject; a confirmed send
passes the stored (unprefixed) subject to the mailbox send operation. -/
theorem C10_draft_subject_unprefixed :
    (∀ (emails : List EmailMsg) (cr rr : EmailMsg → String)
        (df : String → String → String → DraftCallResult) (now : String) (st : Stores),
      (process_emails emails cr rr df now st).2.2 =
        emails.map (fun e => (e.sender, "Re: " ++ e.subject, clean_email_body (rr e)))) ∧
    (∀ (emails : List EmailMsg) (cr rr : EmailMsg → String)
        (df : String → String → String → DraftCallResult) (now : String) (st : Stores)
        (k : String) (d : Draft),
      (k, d) ∈ (process_emails emails cr rr df now st).2.1.drafts →
      (k, d) ∈ st.drafts ∨ ∃ e ∈ emails, e.id = k ∧ d.subject = e.subject ∧
        d.draft_reply = clean_email_body (rr e)) ∧
    (∀ (st : Stores) (f : String → String → String → SendResult) (id rcpt : String)
        (d : Draft), alookup st.drafts id = some d →
      (send_drafted_email st f id rcpt true).2.2 =
        [(rcpt, d.subject, clean_email_body d.draft_reply)]) := by
  refine ⟨?_, ?_, ?_⟩
  · intro emails cr rr df now st
    simp only [process_emails]
    exact processGo_calls cr rr df now emails st initCategories
  · intro emails cr rr df now st k d h
    simp only [process_emails] at h
    rcases processGo_drafts_mem cr rr df now emails st initCategories k d h with h2 | h2
    · exact Or.inl h2
    · obtain ⟨e, he, hk, hd⟩ := h2
      exact Or.inr ⟨e, he, hk, by rw [hd, procDraft_subject], by rw [hd, procDraft_reply]⟩
  · intro st f id rcpt d h
    cases hf : f rcpt d.subject (clean_email_body d.draft_reply) with
    | sent i tid => simp [send_drafted_email, h, hf]
    | error m => simp [send_drafted_email, h, hf]

/-- C10 witness: a confirmed send of a concrete stored draft calls the send
operation with the stored, unprefixed subject. -/
theorem C10_witness :
    (send_drafted_email ⟨none, [("e1", ⟨"e1", "Subj", "Body", "URGENT", 90, "r", "t"⟩)], []⟩
        (fun _ _ _ => SendResult.sent "m" "th") "e1" "bob" true).2.2 =
      [("bob", "Subj", clean_email_body "Body")] :=
  C10_draft_subject_unprefixed.2.2 _ _ _ _ ⟨"e1", "Subj", "Body", "URGENT", 90, "r", "t"⟩
    (by decide)

/-- C8 witness: processing one email with an out-of-range model confidence
still yields a nonnegative persisted confidence. -/
theorem C8_witness :
    0 ≤ (procRecord (fun _ => "Confidence: 250") (fun _ => "reply")
      (fun _ _ _ => DraftCallResult.error "x") "t" ⟨"id1", "s", "snd", "d", "b"⟩).confidence :=
  C8_confidence_nonneg.2.2 [⟨"id1", "s", "snd", "d", "b"⟩] (fun _ => "Confidence: 250")
    (fun _ => "reply") (fun _ _ _ => DraftCallResult.error "x") "t" ⟨none, [], []⟩ _
    (by simp) (by decide)


/-! Lemmas about substring search and Python split, for `_generate`. -/

theorem stripPrefixL_spec : ∀ (pat s rest : List Char),
    stripPrefixL pat s = some rest → s = pat ++ rest := by
  intro pat
  induction pat with
  | nil =>
    intro s rest h
    simp [stripPrefixL] at h
    simp [h]
  | cons p pt ih =>
    intro s rest h
    cases s with
    | nil => simp [stripPrefixL] at h
    | cons c ct =>
      simp only [stripPrefixL] at h
      by_cases hc : c = p
      · rw [if_pos hc] at h
        have h2 := ih ct rest h
        simp [hc, h2]
      · rw [if_neg hc] at h
        exact absurd h (by simp)

theorem splitFirst_spec : ∀ (pat s pre post : List Char),
    splitFirst pat s = some (pre, post) → s = pre ++ pat ++ post := by
  intro pat s
  induction s with
  | nil =>
    intro pre post h
    simp only [splitFirst] at h
    cases hp : stripPrefixL pat [] with
    | none => rw [hp] at h; simp at h
    | some rest =>
      rw [hp] at h
      simp at h
      obtain ⟨h1, h2⟩ := h
      subst h1
      subst h2
      have h3 := stripPrefixL_spec pat [] rest hp
      simpa using h3
  | cons c t ih =>
    intro pre post h
    simp only [splitFirst] at h
    cases hp : stripPrefixL pat (c :: t) with
    | some rest =>
      rw [hp] at h
      simp at h
      obtain ⟨h1, h2⟩ := h
      subst h1
      subst h2
      have h3 := stripPrefixL_spec pat (c :: t) rest hp
      simpa using h3
    | none =>
      rw [hp] at h
      cases hq : splitFirst pat t with
      | none => rw [hq] at h; simp at h
      | some pr =>
        obtain ⟨pre2, post2⟩ := pr
        rw [hq] at h
        simp at h
        obtain ⟨h1, h2⟩ := h
        subst h1
        subst h2
        have h3 := ih pre2 post2 hq
        simp [h3]

theorem splitFirst_none_of_not_contains {pat s : List Char}
    (h : containsSubL pat s = false) : splitFirst pat s = none := by
  unfold containsSubL at h
  cases hx : splitFirst pat s with
  | none => rfl
  | some pr => rw [hx] at h; simp at h

theorem pySplitF_single (pat s : List Char) (h : containsSubL pat s = false) :
    ∀ fuel : Nat, pySplitF pat fuel s = [s] := by
  intro fuel
  cases fuel with
  | zero => rfl
  | succ f => simp [pySplitF, splitFirst_none_of_not_contains h]

theorem pySplitF_ne_nil (pat : List Char) : ∀ (fuel : Nat) (s : List Char),
    pySplitF pat fuel s ≠ [] := by
  intro fuel s
  cases fuel with
  | zero => simp [pySplitF]
  | succ f =>
    cases hx : splitFirst pat s with
    | none => simp [pySplitF, hx]
    | some pr => obtain ⟨pre, post⟩ := pr; simp [pySplitF, hx]

theorem lastD_cons (d x : List Char) (l : List (List Char)) (h : l ≠ []) :
    lastD d (x :: l) = lastD d l := by
  cases l with
  | nil => exact absurd rfl h
  | cons y ys => rfl

theorem pySplit_last_spec (pat : List Char) (hp : pat ≠ []) :
    ∀ (fuel : Nat) (s : List Char), s.length ≤ fuel → containsSubL pat s = true →
      ∃ a t, s = a ++ pat ++ t ∧ containsSubL pat t = false ∧
        lastD [] (pySplitF pat fuel s) = t := by
  intro fuel
  induction fuel with
  | zero =>
    intro s hlen hc
    have hs : s = [] := List.length_eq_zero.mp (Nat.le_zero.mp hlen)
    subst hs
    exfalso
    cases pat with
    | nil => exact hp rfl
    | cons p pt => simp [containsSubL, splitFirst, stripPrefixL] at hc
  | succ fuel ih =>
    intro s hlen hc
    obtain ⟨⟨pre, post⟩, hx⟩ : ∃ pr, splitFirst pat s = some pr := by
      unfold containsSubL at hc
      cases hx : splitFirst pat s with
      | none => rw [hx] at hc; simp at hc
      | some pr => exact ⟨pr, rfl⟩
    have hs : s = pre ++ pat ++ post := splitFirst_spec pat s pre post hx
    have hred : pySplitF pat (fuel + 1) s = pre :: pySplitF pat fuel post := by
      simp [pySplitF, hx]
    by_cases hcp : containsSubL pat post = true
    · have hpat : 1 ≤ pat.length := by
        cases pat with
        | nil => exact absurd rfl hp
        | cons p pt => simp
      have hlen2 : post.length ≤ fuel := by
        have hslen : s.length = pre.length + pat.length + post.length := by
          rw [hs]; simp [Nat.add_assoc]
        omega
      obtain ⟨a2, t2, h1, h2, h3⟩ := ih post hlen2 hcp
      refine ⟨pre ++ pat ++ a2, t2, ?_, h2, ?_⟩
      · rw [hs, h1]; simp
      · rw [hred, lastD_cons _ _ _ (pySplitF_ne_nil pat fuel post), h3]
    · have hcp2 : containsSubL pat post = false := by
        cases h : containsSubL pat post with
        | false => rfl
        | true => exact absurd h hcp
      refine ⟨pre, post, hs, hcp2, ?_⟩
      rw [hred, pySplitF_single pat post hcp2 fuel]
      rfl

theorem generate_some_eq (p r : String) (hp : p.data ≠ []) :
    _generate p (some r) =
      if containsSubL p.data r.data then ⟨pythonStrip (lastD [] (pySplit p.data r.data))⟩
      else ⟨pythonStrip r.data⟩ := by
  cases hpd : p.data with
  | nil => exact absurd hpd hp
  | cons c ct => simp [_generate, hpd]

theorem containsSubL_nil (s : List Char) : containsSubL [] s = true := by
  cases s <;> simp [containsSubL, splitFirst, stripPrefixL]

/-- C7 (counterexample): the prompt `P` occurs in the completion `aPb` but
not as a prefix, so by the claim the result should be the trimmed
completion `aPb`; the code instead splits on the prompt and keeps only the
text after its last occurrence, returning `b`. -/
theorem C7_counterexample :
    _generate "P" (some "aPb") = "b" ∧ _generate "P" (some "aPb") ≠ "aPb" := by decide

/-- C7 (amended): every generation-client operation returns the empty
string whenever the underlying completion call fails (no error propagated).
On success, when the (nonempty) prompt occurs verbatim in the completion,
the result is the whitespace-trimmed text of the suffix after the last
non-overlapping occurrence of the prompt (the unique tail reached by the
left-to-right split, itself free of the prompt); otherwise it is the
trimmed completion. -/
theorem C7_generate_failure_and_echo :
    (∀ p : String, _generate p none = "") ∧
    (∀ (p r : String), containsSubL p.data r.data = false →
      _generate p (some r) = ⟨pythonStrip r.data⟩) ∧
    (∀ (p r : String), p.data ≠ [] → containsSubL p.data r.data = true →
      ∃ a t, r.data = a ++ p.data ++ t ∧ containsSubL p.data t = false ∧
        _generate p (some r) = ⟨pythonStrip t⟩) := by
  refine ⟨fun p => rfl, ?_, ?_⟩
  · intro p r h
    cases hpd : p.data with
    | nil => rw [hpd] at h; rw [containsSubL_nil] at h; cases h
    | cons c ct =>
      rw [hpd] at h
      rw [generate_some_eq p r (by rw [hpd]; simp), hpd, if_neg (by simp [h])]
  · intro p r hp hc
    obtain ⟨a, t, h1, h2, h3⟩ :=
      pySplit_last_spec p.data hp r.data.length r.data (Nat.le.refl) hc
    refine ⟨a, t, h1, h2, ?_⟩
    rw [generate_some_eq p r hp, if_pos (by simp [hc])]
    unfold pySplit
    rw [h3]

/-- C7 witness: failure yields the empty string; a completion without the
prompt is only trimmed; a completion with overlapping prompt occurrences
keeps exactly the prompt-free tail after the last non-overlapping match. -/
theorem C7_witness :
    _generate "x" none = "" ∧
    _generate "P" (some "  no echo ") = "no echo" ∧
    (∃ a t, ("aaab" : String).data = a ++ ("aa" : String).data ++ t ∧
      containsSubL ("aa" : String).data t = false ∧
      _generate "aa" (some "aaab") = ⟨pythonStrip t⟩) :=
  ⟨C7_generate_failure_and_echo.1 "x",
   by
    have h := C7_generate_failure_and_echo.2.1 "P" "  no echo " (by decide)
    rw [h]; decide,
   C7_generate_failure_and_echo.2.2 "aa" "aaab" (by decide) (by decide)⟩

/-- C9 (code_bug): the mailbox client returns message bodies without
decoding the provider transport (base64url) encoding.  The single-part and
multipart extractors return the raw `data` field unchanged; on the
base64url encoding `aGk=` of the plain text `hi`, the code returns `aGk=`
while the spec requires the decoded `hi`. -/
theorem C9_body_not_decoded :
    (∀ bd : String, _get_body_from_payload (some bd) = bd) ∧
    _get_body_from_payload (some "aGk=") = "aGk=" ∧
    _get_body_from_parts [⟨"text/plain", some "aGk="⟩, ⟨"text/html", some "ignored"⟩] =
      "aGk=" ∧
    base64UrlDecode "aGk=" = some "hi" ∧
    ("aGk=" : String) ≠ "hi" := by
  refine ⟨fun bd => rfl, ?_, ?_, ?_, ?_⟩ <;> decide

set_option maxHeartbeats 4000000 in
/-- C1 witness: the cleaning scenario of the spec itself satisfies the stability
hypotheses, so cleaning it twice equals cleaning it once. -/
theorem C1_witness :
    clean_email_body (clean_email_body
        "<think>reasoning...</think>Here\x27s the email.\nDear Sam,\n\nThanks.\n\nBest,\nAlex") =
      clean_email_body
        "<think>reasoning...</think>Here\x27s the email.\nDear Sam,\n\nThanks.\n\nBest,\nAlex" :=
  C1_clean_idempotent_on_stable _ (by decide) (by decide) (by decide)

end AutoInbox
